import Mathlib

/-!
Verification of the Web Stryker R7 Python Edition extraction pipeline.

This file gives a shallow embedding of the parts of the repository the
claims are about:

* `domain_models.py` — `ProductEntity`, `CompanyEntity.to_dict`, and the
  `ExtractionState` class-level registry (modelled as an explicit
  association list that the registry operations transform);
* `extraction_service.py` — `validate_url`, `fetch_content` (the retry
  loop, with per-attempt HTTP outcomes, the stop flag and the jitter
  supplied as oracles), `process_url`, and the aggregation loop of
  `process_batch_urls`;
* `extractors_base.py` — the company-name part of
  `CompanyExtractor.extract` (the two title-suffix substitutions are
  embedded as executable functions on characters, the three regex/JSON
  probes into the page are oracles), the e-mail part of
  `ContactExtractor.extract` (the e-mail regex and `re.findall` are
  embedded executably), and the product-link loop of
  `ProductExtractor.extract` together with
  `ProductExtractor.process_product_page`.

Modelling conventions, used throughout:

* machine side effects (HTTP requests, `time.sleep`, logging) are made
  visible as explicit traces returned next to the function result;
* wall-clock readings and `datetime.now()` are dropped (they never feed
  back into control flow for the code modelled here);
* Python's `re` module is Unicode-aware; character classes such as `\w`
  are modelled by their ASCII content, which agrees with Python on every
  character the claims mention;
* regex probes whose results only flow into the extracted record
  (page title, structured-data organization name, site-name meta tag,
  discovered product links, ...) are oracle parameters, while the string
  transformations applied to those results are embedded executably.
-/

/-! ## domain_models.py — entities -/

/-- Mirror of the `ProductEntity` dataclass. -/
structure ProductEntity where
  product_name : String := ""
  product_url : String := ""
  main_category : String := ""
  sub_category : String := ""
  product_family : String := ""
  price : String := ""
  quantity : String := ""
  description : String := ""
  specifications : String := ""
  images : List String := []
  deriving Repr, DecidableEq

/-- Mirror of the `CompanyEntity` dataclass (`extraction_date` is kept as
an opaque string; `__post_init__` only fills it with a wall-clock reading). -/
structure CompanyEntity where
  url : String := ""
  company_name : String := ""
  company_description : String := ""
  company_type : String := ""
  emails : List String := []
  phones : List String := []
  addresses : List String := []
  extraction_date : String := ""
  products : List ProductEntity := []
  logo : String := ""
  deriving Repr, DecidableEq

/-- Python `", ".join(xs) if xs else ""` (joining the empty list already
gives the empty string, so this is a plain intercalation). -/
def pyJoin (sep : String) (xs : List String) : String :=
  String.intercalate sep xs

/-- Mirror of `CompanyEntity.to_dict`: the returned Python dict, with its
keys in insertion order.  Only the first product (`primary_product`) is
flattened into the `product_*` fields; `logo` has no key at all. -/
def CompanyEntity.toDict (c : CompanyEntity) : List (String × String) :=
  let pp := c.products.head?
  [ ("url", c.url),
    ("company_name", c.company_name),
    ("company_description", c.company_description),
    ("company_type", c.company_type),
    ("emails", pyJoin ", " c.emails),
    ("phones", pyJoin ", " c.phones),
    ("addresses", pyJoin "; " c.addresses),
    ("extraction_date", c.extraction_date),
    ("product_name", (pp.map (·.product_name)).getD ""),
    ("product_url", (pp.map (·.product_url)).getD ""),
    ("product_category", (pp.map (·.main_category)).getD ""),
    ("product_subcategory", (pp.map (·.sub_category)).getD ""),
    ("product_family", (pp.map (·.product_family)).getD ""),
    ("quantity", (pp.map (·.quantity)).getD ""),
    ("price", (pp.map (·.price)).getD ""),
    ("product_description", (pp.map (·.description)).getD ""),
    ("specifications", (pp.map (·.specifications)).getD ""),
    ("images", (pp.map (fun p => pyJoin ", " p.images)).getD "") ]

/-- The key set of `CompanyEntity.to_dict`, in insertion order. -/
def toDictKeys : List String :=
  [ "url", "company_name", "company_description", "company_type",
    "emails", "phones", "addresses", "extraction_date",
    "product_name", "product_url", "product_category",
    "product_subcategory", "product_family", "quantity", "price",
    "product_description", "specifications", "images" ]

/-! ## domain_models.py — the ExtractionState registry -/

/-- One entry of `ExtractionState._extraction_states` (the `start_time`
wall-clock field is dropped). -/
structure StateRec where
  paused : Bool
  stopped : Bool
  url : String
  progress : Nat
  stageLabel : String
  deriving Repr, DecidableEq

/-- The class-level dict `ExtractionState._extraction_states`.  The code
never iterates over it, so a Python dict is faithfully a partial map from
extraction ids to entries. -/
def Registry := String → Option StateRec

/-- The dict at process start: empty. -/
def emptyReg : Registry := fun _ => none

/-- Python `states[id]` lookup. -/
def lookupId (reg : Registry) (id : String) : Option StateRec :=
  reg id

/-- Python dict assignment `states[id] = rec`. -/
def setEntry (reg : Registry) (id : String) (rec : StateRec) : Registry :=
  fun k => if k = id then some rec else reg k

/-- Python `if id in states: states[id] = f(states[id])` — every operation
of the registry that mutates an existing entry in place. -/
def mapEntry (reg : Registry) (id : String) (f : StateRec → StateRec) : Registry :=
  fun k => if k = id then (reg k).map f else reg k

/-- Mirror of `ExtractionState.__init__(extraction_id, url)`: registers (or
re-registers) the id with both flags cleared, progress 0, stage
"Initializing". -/
def initState (reg : Registry) (id url : String) : Registry :=
  setEntry reg id
    { paused := false, stopped := false, url := url,
      progress := 0, stageLabel := "Initializing" }

/-- Mirror of `ExtractionState.pause`. -/
def pauseState (reg : Registry) (id : String) : Registry :=
  mapEntry reg id (fun r => { r with paused := true })

/-- Mirror of `ExtractionState.resume`. -/
def resumeState (reg : Registry) (id : String) : Registry :=
  mapEntry reg id (fun r => { r with paused := false })

/-- Mirror of `ExtractionState.stop`. -/
def stopState (reg : Registry) (id : String) : Registry :=
  mapEntry reg id (fun r => { r with stopped := true })

/-- Mirror of `ExtractionState.update_progress` (the instance method first
bails out when `self.extraction_id` is falsy, i.e. the empty string). -/
def updateProgress (reg : Registry) (id : String) (pct : Nat) (lbl : String) : Registry :=
  if id = "" then reg else mapEntry reg id (fun r => { r with progress := pct, stageLabel := lbl })

/-- Mirror of `ExtractionState.is_stopped` (truthiness of
`extraction_id and extraction_id in states and states[id]["stopped"]`). -/
def isStopped (reg : Registry) (id : String) : Bool :=
  !(id = "") && ((lookupId reg id).map (·.stopped)).getD false

/-- Mirror of `ExtractionState.is_paused`. -/
def isPaused (reg : Registry) (id : String) : Bool :=
  !(id = "") && ((lookupId reg id).map (·.paused)).getD false

/-- The registry operations of claim C8 other than re-construction. -/
inductive RegOp where
  | pauseOp (id : String)
  | resumeOp (id : String)
  | stopOp (id : String)
  | progressOp (id : String) (pct : Nat) (lbl : String)
  deriving Repr, DecidableEq

/-- Interpretation of a registry operation. -/
def applyOp (reg : Registry) : RegOp → Registry
  | .pauseOp id => pauseState reg id
  | .resumeOp id => resumeState reg id
  | .stopOp id => stopState reg id
  | .progressOp id pct lbl => updateProgress reg id pct lbl

/-! ## extraction_service.py — fetch_content

The retry loop of `ExtractionService.fetch_content`.  One HTTP attempt is
an oracle value (`requests.get` either returns a response with a status
code and a body, or raises `requests.RequestException`); the stop flag
checked at the head of each iteration and the `random.uniform(0, 1)`
jitter are oracles indexed by the attempt number.  The pause wait loop
only burns wall-clock time, so it is dropped.  The trace records which
attempts issued an HTTP GET and the `time.sleep` backoff durations, in
seconds, in order: `sleeps[k]` separates attempt `k` from attempt
`k + 1`, i.e. it is the delay before attempt `k + 1`. -/

/-- Outcome of one `requests.get` call. -/
inductive AttemptResult where
  | response (status : Nat) (body : String)
  | transportError (msg : String)
  deriving Repr, DecidableEq

/-- Side effects of one `fetch_content` call. -/
structure FetchTrace where
  httpAttempts : List Nat
  sleeps : List ℚ
  deriving Repr, DecidableEq

/-- The loop `for attempt in range(max_retries)` of `fetch_content`,
starting at attempt number `attempt` with `fuel` iterations left. -/
def fetchGo (stoppedAt : Nat → Bool) (outcome : Nat → AttemptResult) (jitter : Nat → ℚ) :
    Nat → Nat → Option String × FetchTrace
  | _, 0 => (none, ⟨[], []⟩)
  | attempt, fuel + 1 =>
    if stoppedAt attempt then (none, ⟨[], []⟩)
    else
      let rest := fetchGo stoppedAt outcome jitter (attempt + 1) fuel
      let retryRes : Option String × FetchTrace :=
        (rest.1, ⟨attempt :: rest.2.httpAttempts,
                  ((2 : ℚ) ^ attempt + jitter attempt) :: rest.2.sleeps⟩)
      match outcome attempt with
      | .response status body =>
        if status = 200 then (some body, ⟨[attempt], []⟩) else retryRes
      | .transportError _ => retryRes

/-- Mirror of `ExtractionService.fetch_content` (returns the body on the
first HTTP 200, `None` on stop or after `max_retries` failed attempts). -/
def fetchContent (maxRetries : Nat) (stoppedAt : Nat → Bool) (outcome : Nat → AttemptResult)
    (jitter : Nat → ℚ) : Option String × FetchTrace :=
  fetchGo stoppedAt outcome jitter 0 maxRetries

/-! ## extraction_service.py — process_batch_urls

The aggregation loop of `ExtractionService.process_batch_urls`.  Each
per-URL result is the dict returned by `process_url`; `urlKey` is the
value of its `"url"` key, which `process_url` never sets.
`asyncio.as_completed` yields the results in completion order, so the
theorems quantify over an arbitrary permutation of the per-URL results. -/

/-- Shape of the dict returned by `ExtractionService.process_url`. -/
structure ProcResult where
  success : Bool
  error : Option String := none
  data : Option (List (String × String)) := none
  urlKey : Option String := none
  deriving Repr, DecidableEq

/-- Mirror of the `results` dict of `process_batch_urls` (the `batch_id`
string is derived from a wall-clock reading and is dropped). -/
structure BatchResult where
  total : Nat
  processed : Nat
  successful : Nat
  failed : Nat
  failures : List (String × String)
  successFlag : Bool
  deriving Repr, DecidableEq

/-- One iteration of the `for task in asyncio.as_completed(tasks)` loop. -/
def batchStep (acc : BatchResult) (r : ProcResult) : BatchResult :=
  let acc := { acc with processed := acc.processed + 1 }
  if r.success then
    { acc with successful := acc.successful + 1 }
  else
    { acc with
      failed := acc.failed + 1,
      failures := acc.failures ++ [(r.urlKey.getD "unknown", r.error.getD "Unknown error")] }

/-- The batch aggregation: initial results dict, the completion loop, and
the final `success` adjustment (`False` iff any failure). -/
def batchAggregate (rs : List ProcResult) : BatchResult :=
  let init : BatchResult :=
    { total := rs.length, processed := 0, successful := 0, failed := 0,
      failures := [], successFlag := true }
  let res := rs.foldl batchStep init
  if res.failed > 0 then { res with successFlag := false } else res

/-- Mirror of `ExtractionService.process_batch_urls`: the empty URL list
short-circuits to an error dict (modelled as `none`); otherwise the
completion stream `completed` is aggregated. -/
def processBatchUrls (urls : List String) (completed : List ProcResult) :
    Option BatchResult :=
  if urls.isEmpty then none else some (batchAggregate completed)

/-! ## extraction_service.py — validate_url

The pattern `^(https?:\/\/)?([\da-z\.-]+)\.([a-z\.]{2,6})([\/\w \.-]*)*\/?$`
is matched with `re.match` and `re.IGNORECASE`.  Its language is: an
optional case-insensitive scheme `http://` or `https://`, one or more
host characters, a literal dot, two to six top-level-domain characters,
then any number of trailing characters (`([\/\w \.-]*)*\/?` accepts
exactly the strings of `[\/\w \.-]*`).  Matching is decided by brute
force over the split points, which is exactly the language of the
backtracking regex.  `\w` is modelled as ASCII word characters and `$`
as end of string (Python would additionally let `$` match before one
final newline; the embedding is compared on newline-free URLs). -/

/-- Characters of `[\da-z\.-]` under `re.IGNORECASE`. -/
def isHostChar (c : Char) : Bool :=
  c.isDigit || c.isAlpha || c = '.' || c = '-'

/-- Characters of `[a-z\.]` under `re.IGNORECASE`. -/
def isTldChar (c : Char) : Bool :=
  c.isAlpha || c = '.'

/-- Characters of `[\/\w \.-]` (ASCII model of `\w`). -/
def isTailChar (c : Char) : Bool :=
  c = '/' || c.isAlphanum || c = '_' || c = ' ' || c = '.' || c = '-'

/-- One candidate split of `host.tld tail`: the host is `l.take i`, the
dot sits at index `i`, the top-level domain takes the next `k` characters. -/
def checkSplit (l : List Char) (i k : Nat) : Bool :=
  let host := l.take i
  match l.drop i with
  | d :: rest2 =>
      let tld := rest2.take k
      let tail := rest2.drop k
      decide (d = '.') && decide (1 ≤ i) && host.all isHostChar &&
        decide (tld.length = k) && tld.all isTldChar && tail.all isTailChar
  | [] => false

/-- Whether `([\da-z\.-]+)\.([a-z\.]{2,6})([\/\w \.-]*)*\/?$` matches all
of `l`: some split with a host, a dot, a 2–6 character TLD and a tail works. -/
def hostTldTail (l : List Char) : Bool :=
  (List.range (l.length + 1)).any fun i =>
    (List.range' 2 5).any fun k => checkSplit l i k

/-- Case-insensitive test for a literal ASCII prefix. -/
def hasPrefixCI (l : List Char) (p : List Char) : Bool :=
  decide ((l.take p.length).map Char.toLower = p)

/-- The URL with a leading case-insensitive `http://` or `https://`
removed (the two literals are mutually exclusive as prefixes). -/
def stripScheme (l : List Char) : List Char :=
  if hasPrefixCI l "http://".toList then l.drop 7
  else if hasPrefixCI l "https://".toList then l.drop 8
  else l

/-- Mirror of `ExtractionService.validate_url`: the anchored pattern with
its optional scheme group matches the whole string. -/
def validateUrl (s : String) : Bool :=
  let l := s.toList
  hostTldTail l ||
    (hasPrefixCI l "http://".toList && hostTldTail (l.drop 7)) ||
    (hasPrefixCI l "https://".toList && hostTldTail (l.drop 8))

/-- Characters that can occur at all in a string of the host/tld/tail part
of the pattern. -/
def allowedChar (c : Char) : Bool :=
  c.isDigit || c.isAlpha || c = '.' || c = '-' || c = '_' || c = ' ' || c = '/'

/-! ## extractors_base.py — CompanyExtractor.extract

The company stage.  The regex/JSON probes into the page content (title
tag, JSON-LD organization name, site-name meta tag, description sources,
industry table, logo patterns) are oracles, because their values flow
straight into the record; the string processing the code applies to those
values — Python `str.strip` and the two `re.sub` title clean-ups — is
embedded executably.  For the two substitutions the pattern tail `.*$`
swallows the rest of the string, so `re.sub` deletes everything from the
leftmost position where the pattern can start (`.` does not match a
newline, but a title captured by `<title>(.*?)</title>` cannot contain
one; the embedding is compared on newline-free titles). -/

/-- Python `str.isspace` characters relevant to `str.strip()` (ASCII). -/
def isPySpace (c : Char) : Bool :=
  c = ' ' || c = '\t' || c = '\n' || c = '\r' || c = Char.ofNat 11 || c = Char.ofNat 12

/-- Python `str.strip()`. -/
def pyStrip (l : List Char) : List Char :=
  ((l.dropWhile isPySpace).reverse.dropWhile isPySpace).reverse

/-- Case-insensitive literal prefix test against a lowercase pattern. -/
def startsWithCI (l : List Char) (kw : List Char) : Bool :=
  decide ((l.take kw.length).map Char.toLower = kw)

/-- Case-insensitive literal substring test against a lowercase pattern. -/
def containsCI (l : List Char) (kw : List Char) : Bool :=
  (List.range (l.length + 1)).any fun i => startsWithCI (l.drop i) kw

/-- Whether `\s*[-|]\s*(Home|Official Website|Official Site|Welcome).*$`
(case-insensitive) matches starting at the head of `l`: maximal leading
whitespace, a dash or pipe, maximal whitespace, then one of the literals
(the whitespace runs are maximal because neither `[-|]` nor the literals
start with whitespace). -/
def titleSub1MatchHere (l : List Char) : Bool :=
  match l.dropWhile isPySpace with
  | d :: rest =>
      (d = '-' || d = '|') &&
      (let rest2 := rest.dropWhile isPySpace
       startsWithCI rest2 "home".toList || startsWithCI rest2 "official website".toList ||
         startsWithCI rest2 "official site".toList || startsWithCI rest2 "welcome".toList)
  | [] => false

/-- Whether `\s*[-|]\s*.*?(homepage|official).*$` (case-insensitive)
matches starting at the head of `l`: whitespace, a dash or pipe, then the
lazy gap lets the keyword sit anywhere in the remainder. -/
def titleSub2MatchHere (l : List Char) : Bool :=
  match l.dropWhile isPySpace with
  | d :: rest =>
      (d = '-' || d = '|') &&
      (containsCI rest "homepage".toList || containsCI rest "official".toList)
  | [] => false

/-- Leftmost position where a pattern whose match runs to the end of the
string can start; `re.sub` deletes from there. -/
def subFromLeftmost (p : List Char → Bool) (l : List Char) : List Char :=
  match (List.range (l.length + 1)).find? (fun i => p (l.drop i)) with
  | some i => l.take i
  | none => l

/-- The two title clean-up substitutions of `CompanyExtractor.extract`,
in source order. -/
def stripTitleSuffixes (l : List Char) : List Char :=
  subFromLeftmost titleSub2MatchHere (subFromLeftmost titleSub1MatchHere l)

/-- Oracles for the regex/JSON probes of `CompanyExtractor.extract`:
each returns what the corresponding `re.search`/JSON lookup produces on
the given content (`none` = no match).  `resolveUrl` stands for
`urljoin`. -/
structure CompanyProbes where
  titleOf : String → Option String
  orgNameOf : String → Option String
  siteNameOf : String → Option String
  metaDescOf : String → Option String
  aboutOf : String → Option String
  ogDescOf : String → Option String
  industryOf : String → Option String
  logoOf : String → Option String
  resolveUrl : String → String → String

/-- The company-name part of `CompanyExtractor.extract` (mutations in
source order): page title with suffixes stripped, then structured-data
organization name, then site-name meta tag, each unconditionally
overwriting the previous value when its probe matches. -/
def companyExtractName (pr : CompanyProbes) (content : String) (c : CompanyEntity) :
    CompanyEntity :=
  let c := match pr.titleOf content with
    | some t => { c with company_name := String.mk (stripTitleSuffixes (pyStrip t.toList)) }
    | none => c
  let c := match pr.orgNameOf content with
    | some o => { c with company_name := o }
    | none => c
  match pr.siteNameOf content with
  | some sn => { c with company_name := String.mk (pyStrip sn.toList) }
  | none => c

/-- The company-description value after its three sources are applied in
source order: meta description (stripped), then an about section when
longer than the current value, then the open-graph description when the
current value is empty or shorter. -/
def companyDescValue (pr : CompanyProbes) (content : String) (d0 : String) : String :=
  let d := match pr.metaDescOf content with
    | some m => String.mk (pyStrip m.toList)
    | none => d0
  let d := match pr.aboutOf content with
    | some a => if d.length < a.length then a else d
    | none => d
  match pr.ogDescOf content with
  | some og => if d = "" ∨ d.length < og.length then String.mk (pyStrip og.toList) else d
  | none => d

/-- The description/type/logo part of `CompanyExtractor.extract`
(mutations in source order): the description chain, then the company type
from the first matching industry row — searched in the description when
non-empty, else the whole content — then the logo from the first matching
locator pattern, resolved against the page URL. -/
def companyExtractRest (pr : CompanyProbes) (content url : String) (c : CompanyEntity) :
    CompanyEntity :=
  let c := { c with company_description :=
    companyDescValue pr content c.company_description }
  let c := match pr.industryOf (if c.company_description = "" then content
                                else c.company_description) with
    | some ty => { c with company_type := ty }
    | none => c
  match pr.logoOf content with
  | some lg => { c with logo := pr.resolveUrl lg url }
  | none => c

/-- Mirror of `CompanyExtractor.extract` (the stats counters are
process-wide observability and are not modelled). -/
def companyExtract (pr : CompanyProbes) (content url : String) (c : CompanyEntity) :
    CompanyEntity :=
  companyExtractRest pr content url (companyExtractName pr content c)

/-- The name the company stage ends up with, written the way the spec
describes the precedence (site-name meta beats structured data beats
title): used to compare the sequential last-writer-wins code against the
spec reading. -/
def specNamePrecedence (titleMatch orgName siteName : Option String) (initial : String) :
    String :=
  match siteName with
  | some sn => String.mk (pyStrip sn.toList)
  | none =>
    match orgName with
    | some o => o
    | none =>
      match titleMatch with
      | some t => String.mk (stripTitleSuffixes (pyStrip t.toList))
      | none => initial

/-! ## extractors_base.py — ContactExtractor.extract

The e-mail half of the contact stage is embedded executably:
`re.findall` with `\b[A-Za-z0-9._%+-]+@[A-Za-z0-9.-]+\.[A-Za-z]{2,}\b`
scans left to right; at each position the greedy runs cannot trade
characters with the literals `@` and `.` that follow (the literals are
not members of the preceding classes), so the local part and the domain
run are maximal, the engine backtracks the domain run to the last dot
that leaves at least two letters followed by a word boundary, and the
`{2,}` letter run must also be maximal (giving a letter back would put a
word character right after the match).  Word boundaries are evaluated
against the previous character.  `\w` is modelled as ASCII. -/

/-- ASCII model of `\w`. -/
def isWordChar (c : Char) : Bool :=
  c.isAlphanum || c = '_'

/-- Characters of `[A-Za-z0-9._%+-]`. -/
def isLocalChar (c : Char) : Bool :=
  c.isAlphanum || c = '.' || c = '_' || c = '%' || c = '+' || c = '-'

/-- Characters of `[A-Za-z0-9.-]`. -/
def isDomainChar (c : Char) : Bool :=
  c.isAlphanum || c = '.' || c = '-'

/-- Backtracking search for `\.[A-Za-z]{2,}\b` inside the maximal domain
run `dom` (`rest3` is the input after the run): the engine tries the dot
position `d` from the right; the match then ends after the maximal letter
run, which must have length at least two and be followed by a non-word
character or the end of input. -/
def emailTldSearch (dom rest3 : List Char) : Option (Nat × List Char) :=
  (List.range dom.length).reverse.findSome? fun d =>
    if 1 ≤ d then
      match dom.drop d with
      | c :: after =>
        if c = '.' then
          let tldRun := after.takeWhile (fun ch => ch.isAlpha)
          let nxt := (after.drop tldRun.length) ++ rest3
          if 2 ≤ tldRun.length &&
              (match nxt.head? with
               | some c2 => !isWordChar c2
               | none => true) then
            some (d, tldRun)
          else none
        else none
      | [] => none
    else none

/-- One attempt to match the e-mail pattern at the current position.
`prevWord` says whether the character before this position is a word
character (false at the start of input).  On success, returns the matched
text and the rest of the input after the match. -/
def emailMatchAt (prevWord : Bool) (l : List Char) : Option (List Char × List Char) :=
  let loc := l.takeWhile isLocalChar
  let currWord := match l.head? with
    | some c => isWordChar c
    | none => false
  if loc.isEmpty then none
  else if prevWord = currWord then none
  else
    match l.drop loc.length with
    | a :: rest2 =>
      if a = '@' then
        let dom := rest2.takeWhile isDomainChar
        let rest3 := rest2.drop dom.length
        match emailTldSearch dom rest3 with
        | some (d, tldRun) =>
            some (loc ++ '@' :: (dom.take d) ++ '.' :: tldRun,
                  ((dom.drop (d + 1)).drop tldRun.length) ++ rest3)
        | none => none
      else none
    | [] => none

/-- The `re.findall` scan: try to match at each position, skip one
character on failure, continue after the matched text on success
(non-overlapping matches).  `fuel` bounds the recursion by the input
length. -/
def emailFindallGo (prevWord : Bool) (l : List Char) : Nat → List (List Char)
  | 0 => []
  | fuel + 1 =>
    match emailMatchAt prevWord l with
    | some (m, rest) => m :: emailFindallGo true rest fuel
    | none =>
      match l with
      | [] => []
      | c :: rest => emailFindallGo (isWordChar c) rest fuel

/-- Mirror of `re.findall(email_pattern, text)` (the pattern has no
groups, so `findall` returns the full match texts). -/
def emailFindall (s : String) : List String :=
  (emailFindallGo false s.toList (s.toList.length + 1)).map String.mk

/-- Python `str.lower()` (ASCII model, matching the addresses the
pattern can produce). -/
def pyLower (s : String) : String :=
  String.mk (s.toList.map Char.toLower)

/-- The fixed placeholder set `false_positives` of the contact stage. -/
def falsePositives : List String :=
  ["example@example.com", "user@example.com", "name@example.com"]

/-- Oracles for the parts of `ContactExtractor.extract` other than the
e-mail extraction: `contactExtraOf` is the text of the fetched
contact-like page (empty when none is found or the fetch fails);
`phonesOf`, `addrSectionOf` and `addrPatternsOf` are the regex harvests
for phones and addresses. -/
structure ContactProbes where
  contactExtraOf : String → String
  phonesOf : String → List String
  addrSectionOf : String → List String
  addrPatternsOf : String → List String

/-- The e-mail part of `ContactExtractor.extract`: findall over the
combined content, drop placeholders (case-insensitively), deduplicate;
the field is left untouched when findall finds nothing at all. -/
def contactEmailsStage (pr : ContactProbes) (content : String) (c : CompanyEntity) :
    CompanyEntity :=
  let combined := content ++ pr.contactExtraOf content
  let M := emailFindall combined
  if M.isEmpty then c
  else { c with emails :=
    (M.filter (fun e => decide (pyLower e ∉ falsePositives))).dedup }

/-- The phone/address part of `ContactExtractor.extract`: phones are the
four patterns deduplicated, assigned only when non-empty; addresses are
the section harvest, the whole-document fallback when still empty, then
a dedup. -/
def contactRest (pr : ContactProbes) (content : String) (c : CompanyEntity) :
    CompanyEntity :=
  let combined := content ++ pr.contactExtraOf content
  let c :=
    let found := pr.phonesOf combined
    if found.isEmpty then c else { c with phones := found.dedup }
  let c := { c with addresses := c.addresses ++ pr.addrSectionOf combined }
  let c := if c.addresses.isEmpty
           then { c with addresses := c.addresses ++ pr.addrPatternsOf combined }
           else c
  { c with addresses := c.addresses.dedup }

/-- Mirror of `ContactExtractor.extract`.  `list(set(xs))` is modelled by
`List.dedup` (Python's set iteration order is arbitrary; every theorem
about these fields is order-insensitive). -/
def contactExtract (pr : ContactProbes) (content : String) (c : CompanyEntity) :
    CompanyEntity :=
  contactRest pr content (contactEmailsStage pr content c)

/-! ## extractors_base.py — ProductExtractor

The product-link loop of `ProductExtractor.extract` together with
`process_product_page`.  The link discovery (`extract_product_links`,
plus the products-page fallback) hands the loop a discovered-link list;
the loop slices it to `max_products` entries, checks the stop flag before
each iteration, skips URLs already in the per-run visited set without
fetching, fetches the page (`none` = non-200 or transport error), builds
a `ProductEntity` from the extracted details (a fetched details dict is
always truthy) and appends it.  `fetched` traces the URLs for which an
HTTP GET was issued. -/

/-- One discovered product link (`{"url": ..., "text": ...}`). -/
structure Link where
  url : String
  text : String
  deriving Repr, DecidableEq

/-- The dict returned by `extract_product_details`. -/
structure ProductData where
  product_name : String := ""
  description : String := ""
  price : String := ""
  quantity : String := ""
  specifications : String := ""
  images : List String := []
  deriving Repr, DecidableEq

/-- Python `a or b` on strings (first truthy operand). -/
def pyOr (a b : String) : String :=
  if a = "" then b else a

/-- The `ProductEntity` built in one loop iteration from the details of a
fetched product page, the link, and the page-level category path. -/
def mkCrawlProduct (d : ProductData) (link : Link) (categories : List String) :
    ProductEntity :=
  { product_name := pyOr d.product_name (pyOr link.text ""),
    product_url := link.url,
    description := d.description,
    price := d.price,
    quantity := d.quantity,
    specifications := d.specifications,
    images := d.images,
    main_category := if categories.isEmpty then "" else categories.headD "",
    sub_category := (categories.drop 1).headD "",
    product_family := (categories.drop 2).headD "" }

/-- The `for i, product_link in enumerate(links_to_process)` loop.
State: the iteration index (for the stop oracle), the visited set, the
products accumulated so far; result: products appended, final visited
set, fetched URLs in order. -/
def productLoopGo (stoppedAt : Nat → Bool) (fetchPage : String → Option String)
    (details : String → ProductData) (categories : List String) :
    List Link → Nat → List String → List ProductEntity × List String × List String
  | [], _, visited => ([], visited, [])
  | link :: rest, i, visited =>
    if stoppedAt i then ([], visited, [])
    else if link.url ∈ visited then
      -- process_product_page: already visited, no fetch, returns None
      productLoopGo stoppedAt fetchPage details categories rest (i + 1) visited
    else
      -- process_product_page: mark visited, fetch, extract details
      let visited2 := link.url :: visited
      match fetchPage link.url with
      | none =>
        let r := productLoopGo stoppedAt fetchPage details categories rest (i + 1) visited2
        (r.1, r.2.1, link.url :: r.2.2)
      | some content =>
        let r := productLoopGo stoppedAt fetchPage details categories rest (i + 1) visited2
        (mkCrawlProduct (details content) link categories :: r.1,
         r.2.1, link.url :: r.2.2)

/-- Mirror of the link-following branch of `ProductExtractor.extract`:
slice the discovered links to `max_products`, run the loop with a fresh
per-run visited set, append the products to the company. -/
def productExtract (stoppedAt : Nat → Bool) (fetchPage : String → Option String)
    (details : String → ProductData) (categories : List String)
    (links : List Link) (maxProducts : Nat) (c : CompanyEntity) :
    CompanyEntity × List String :=
  let r := productLoopGo stoppedAt fetchPage details categories
    (links.take maxProducts) 0 []
  ({ c with products := c.products ++ r.1 }, r.2.2)

/-! ## extraction_service.py — extract_data and process_url

The per-URL pipeline.  The environment gathers every oracle one URL's
run consumes.  With the shipped configuration both AI keys are empty
(`API.AZURE.OPENAI.KEY = ""`, `API.KNOWLEDGE_GRAPH.KEY = ""`), so
`extract_data` skips both enrichment calls; the model reflects that
configuration.  `maxRetries` is `MAX_RETRIES` (default 3) and
`maxProducts` is `EXTRACTION.MAX_PRODUCTS` (default 20).  The trace
records the attempts of the main fetch, the extraction stages that ran,
and the product-page URLs fetched. -/

/-- Oracles for one URL's pipeline run. -/
structure PipelineEnv where
  maxRetries : Nat := 3
  maxProducts : Nat := 20
  stoppedAt : Nat → Bool
  fetchOutcome : Nat → AttemptResult
  jitter : Nat → ℚ
  companyProbes : CompanyProbes
  contactProbes : ContactProbes
  productStoppedAt : Nat → Bool
  productFetch : String → Option String
  productDetails : String → ProductData
  categoriesOf : String → List String
  linksOf : String → List Link

/-- Side effects of one `process_url` call. -/
structure PipeTrace where
  httpAttempts : List Nat
  stagesRun : List String
  productFetches : List String
  deriving Repr, DecidableEq

/-- Mirror of `ExtractionService.extract_data`: fetch, then the company,
contact and product stages in order on the fetched content (progress
updates touch only the registry and are not part of the record). -/
def extractData (env : PipelineEnv) (url : String) : Option CompanyEntity × PipeTrace :=
  let f := fetchContent env.maxRetries env.stoppedAt env.fetchOutcome env.jitter
  match f.1 with
  | none => (none, ⟨f.2.httpAttempts, [], []⟩)
  | some content =>
    let c0 : CompanyEntity := { url := url }
    let c1 := companyExtract env.companyProbes content url c0
    let c2 := contactExtract env.contactProbes content c1
    let r3 := productExtract env.productStoppedAt env.productFetch env.productDetails
      (env.categoriesOf content) (env.linksOf content) env.maxProducts c2
    (some r3.1, ⟨f.2.httpAttempts, ["company", "contact", "product"], r3.2⟩)

/-- Mirror of `ExtractionService.process_url`: validate (reject without
fetching), extract, and package the result dict (`duration_ms` is a
wall-clock reading and is dropped; no path sets a `"url"` key). -/
def processUrl (env : PipelineEnv) (url : String) : ProcResult × PipeTrace :=
  if validateUrl url then
    match extractData env url with
    | (none, tr) => ({ success := false, error := some "Failed to extract data from URL" }, tr)
    | (some c, tr) => ({ success := true, data := some c.toDict }, tr)
  else
    ({ success := false, error := some "Invalid URL format" }, ⟨[], [], []⟩)

/-! ## Concrete batch instance

A five-URL batch, three succeeding and two failing persistently at the
fetch, used to settle the batch-aggregation claims on the full pipeline
model. -/

/-- Probes for a page with no markup of interest. -/
def trivialCompanyProbes : CompanyProbes :=
  { titleOf := fun _ => none, orgNameOf := fun _ => none, siteNameOf := fun _ => none,
    metaDescOf := fun _ => none, aboutOf := fun _ => none, ogDescOf := fun _ => none,
    industryOf := fun _ => none, logoOf := fun _ => none,
    resolveUrl := fun u _ => u }

/-- Contact probes for a page with no contact markup. -/
def trivialContactProbes : ContactProbes :=
  { contactExtraOf := fun _ => "", phonesOf := fun _ => [],
    addrSectionOf := fun _ => [], addrPatternsOf := fun _ => [] }

/-- Environment of a URL whose first fetch attempt returns HTTP 200 with
a plain body. -/
def goodEnv : PipelineEnv :=
  { stoppedAt := fun _ => false,
    fetchOutcome := fun _ => .response 200 "ok",
    jitter := fun _ => 0,
    companyProbes := trivialCompanyProbes,
    contactProbes := trivialContactProbes,
    productStoppedAt := fun _ => false,
    productFetch := fun _ => none,
    productDetails := fun _ => {},
    categoriesOf := fun _ => [],
    linksOf := fun _ => [] }

/-- Environment of a URL whose every fetch attempt raises a transport
error. -/
def badEnv : PipelineEnv :=
  { goodEnv with fetchOutcome := fun _ => .transportError "connection refused" }

/-- The five batch URLs; the second and fourth fail. -/
def cexUrls : List String :=
  ["http://good1.com", "http://bad1.com", "http://good2.com",
   "http://bad2.com", "http://good3.com"]

/-- Which environment each batch URL runs under. -/
def cexEnvOf (url : String) : PipelineEnv :=
  if url = "http://bad1.com" ∨ url = "http://bad2.com" then badEnv else goodEnv

/-- The per-URL results of the concrete batch, in submission order. -/
def cexResults : List ProcResult :=
  cexUrls.map (fun u => (processUrl (cexEnvOf u) u).1)

/-- The aggregated result of the concrete batch. -/
def cexBatch : BatchResult :=
  batchAggregate cexResults

/-- Thirty distinct discovered product links for the crawl scenario. -/
def links30 : List Link :=
  (List.range 30).map (fun i => { url := "http://s.com/p" ++ toString i, text := "view" })

/-! ## Theorems -/

/-- Helper: how `mapEntry` interacts with `lookupId`. -/
theorem lookupId_mapEntry (reg : Registry) (tgt id : String) (f : StateRec → StateRec) :
    lookupId (mapEntry reg tgt f) id =
      if id = tgt then (lookupId reg id).map f else lookupId reg id := by
  rfl

/-- Helper: `mapEntry` with a record transformer that cannot clear the
`stopped` flag preserves `isStopped`. -/
theorem isStopped_mapEntry_preserved (reg : Registry) (id tgt : String)
    (f : StateRec → StateRec) (hf : ∀ r, r.stopped = true → (f r).stopped = true)
    (h : isStopped reg id = true) : isStopped (mapEntry reg tgt f) id = true := by
  unfold isStopped at h ⊢
  rw [Bool.and_eq_true] at h ⊢
  refine ⟨h.1, ?_⟩
  rw [lookupId_mapEntry]
  by_cases htgt : id = tgt
  · simp only [if_pos htgt]
    cases hm : lookupId reg id with
    | none => rw [hm] at h; simpa using h.2
    | some r =>
      rw [hm] at h
      simp only [Option.map_some', Option.getD_some] at h ⊢
      exact hf r h.2
  · simp only [if_neg htgt]
    exact h.2

/-- C8 (amended): once `stop(id)` holds in the registry, the operations
`pause`, `resume`, `stop` and `update_progress` (on any id) never make
`is_stopped(id)` false again; only constructing a new `ExtractionState`
with the same id (or `cleanup`) clears the flag, because `__init__`
overwrites the entry with `stopped = False`. -/
theorem stop_terminal_without_reinit :
    (∀ (reg : Registry) (id : String) (r : StateRec), lookupId reg id = some r → id ≠ "" →
      isStopped (stopState reg id) id = true) ∧
    (∀ (ops : List RegOp) (reg : Registry) (id : String),
      isStopped reg id = true → isStopped (ops.foldl applyOp reg) id = true) := by
  constructor
  · intro reg id r hr hid
    unfold isStopped stopState
    rw [lookupId_mapEntry, if_pos rfl, hr]
    simp [hid]
  intro ops reg id h
  induction ops generalizing reg with
  | nil => exact h
  | cons op rest ih =>
    refine ih _ ?_
    cases op with
    | pauseOp tgt => exact isStopped_mapEntry_preserved reg id tgt _ (fun r hr => hr) h
    | resumeOp tgt => exact isStopped_mapEntry_preserved reg id tgt _ (fun r hr => hr) h
    | stopOp tgt => exact isStopped_mapEntry_preserved reg id tgt _ (fun r _ => rfl) h
    | progressOp tgt pct lbl =>
      show isStopped (updateProgress reg tgt pct lbl) id = true
      unfold updateProgress
      split
      · exact h
      · exact isStopped_mapEntry_preserved reg id tgt _ (fun r hr => hr) h

/-- Witness for `stop_terminal_without_reinit`: a concrete stopped entry
stays stopped under a pause/resume/progress sequence. -/
theorem stop_terminal_without_reinit_witness :
    isStopped (stopState (initState emptyReg "e1" "http://a.co") "e1") "e1" = true ∧
    isStopped
      (([RegOp.pauseOp "e1", RegOp.resumeOp "e1",
         RegOp.progressOp "e1" 50 "Fetching"].foldl applyOp)
        (stopState (initState emptyReg "e1" "http://a.co") "e1")) "e1" = true :=
  ⟨stop_terminal_without_reinit.1 (initState emptyReg "e1" "http://a.co") "e1"
     { paused := false, stopped := false, url := "http://a.co",
       progress := 0, stageLabel := "Initializing" } (by decide) (by decide),
   stop_terminal_without_reinit.2
     [RegOp.pauseOp "e1", RegOp.resumeOp "e1", RegOp.progressOp "e1" 50 "Fetching"]
     (stopState (initState emptyReg "e1" "http://a.co") "e1") "e1" (by decide)⟩

/-- Counterexample to C8 as stated: after `stop("e1")` the flag holds, but
constructing a new `ExtractionState` with the same id (as
`process_url` does on every call) resets `stopped` to `False`, so
`is_stopped("e1")` is false again. -/
theorem reinit_clears_stop_counterexample :
    isStopped (stopState (initState emptyReg "e1" "http://a.co") "e1") "e1" = true ∧
    isStopped
      (initState (stopState (initState emptyReg "e1" "http://a.co") "e1")
        "e1" "http://a.co") "e1" = false := by
  constructor <;> decide

/-- C10: `CompanyEntity.to_dict` exposes exactly the fixed key set (no
`logo` key), flattens only the head of `products` into the `product_*`
fields, and is oblivious to every product after the first. -/
theorem toDict_flattens_only_first_product :
    (∀ c : CompanyEntity, c.toDict.map Prod.fst = toDictKeys ∧
      "logo" ∉ c.toDict.map Prod.fst) ∧
    (∀ (c : CompanyEntity) (p : ProductEntity) (rest₁ rest₂ : List ProductEntity),
      CompanyEntity.toDict { c with products := p :: rest₁ } =
        CompanyEntity.toDict { c with products := p :: rest₂ }) ∧
    (∀ (c : CompanyEntity) (p : ProductEntity) (rest : List ProductEntity),
      (CompanyEntity.toDict { c with products := p :: rest }).lookup "product_name"
        = some p.product_name) ∧
    (∀ (env : PipelineEnv) (url : String), (processUrl env url).1.success = true →
      ∃ c : CompanyEntity, (processUrl env url).1.data = some (CompanyEntity.toDict c)) := by
  refine ⟨?_, fun c p rest₁ rest₂ => rfl, fun c p rest => rfl, ?_⟩
  · intro c
    refine ⟨rfl, ?_⟩
    have h1 : c.toDict.map Prod.fst = toDictKeys := rfl
    rw [h1]
    decide
  · intro env url hs
    unfold processUrl at hs ⊢
    by_cases hv : validateUrl url = true
    · simp only [hv, if_true] at hs ⊢
      split at hs
      · exact absurd hs (by simp)
      · rename_i c tr heq
        exact ⟨c, rfl⟩
    · have hv2 : validateUrl url = false := by
        rwa [Bool.not_eq_true] at hv
      simp only [hv2, Bool.false_eq_true, if_false] at hs

/-- Witness for `toDict_flattens_only_first_product`: a successful
concrete `process_url` run returns a dict produced by
`CompanyEntity.to_dict`. -/
theorem toDict_flattens_only_first_product_witness :
    (processUrl goodEnv "http://good1.com").1.success = true ∧
    ∃ c : CompanyEntity,
      (processUrl goodEnv "http://good1.com").1.data = some (CompanyEntity.toDict c) :=
  ⟨by decide,
   toDict_flattens_only_first_product.2.2.2 goodEnv "http://good1.com" (by decide)⟩

/-- Helper: under persistent failure and no stop, the loop runs all its
iterations, issuing one request per attempt and sleeping
`2^attempt + jitter attempt` after each failed attempt. -/
theorem fetchGo_persistent_failure (stoppedAt : Nat → Bool) (outcome : Nat → AttemptResult)
    (jitter : Nat → ℚ) (start fuel : Nat)
    (hfail : ∀ n, start ≤ n → n < start + fuel → ∀ body, outcome n ≠ .response 200 body)
    (hstop : ∀ n, stoppedAt n = false) :
    fetchGo stoppedAt outcome jitter start fuel =
      (none, ⟨List.range' start fuel,
              (List.range' start fuel).map (fun a => (2 : ℚ) ^ a + jitter a)⟩) := by
  induction fuel generalizing start with
  | zero => simp [fetchGo]
  | succ fuel ih =>
    have hs := hstop start
    have hf := hfail start le_rfl (by omega)
    have ihs := ih (start + 1)
      (fun n h1 h2 => hfail n (by omega) (by omega))
    rw [fetchGo, hs]
    simp only [Bool.false_eq_true, if_false]
    cases ho : outcome start with
    | response status body =>
      have hne : ¬ (status = 200) := by
        intro hq
        exact hf body (by rw [ho, hq])
      simp only [hne, if_false, ihs, List.range']
      simp
    | transportError msg =>
      simp only [ihs, List.range']
      simp

/-- C1 (amended): on persistent failure with no stop request,
`fetch_content` performs exactly `maxRetries` attempts; the delay the code
inserts before attempt `n` (0-indexed, `n ≥ 1`) is the sleep taken after
attempt `n - 1`, namely `2^(n-1) + jitter` with jitter in `[0,1)`, so it
is at least `2^(n-1)` and strictly below `2^n` — not at least `2^n` as the
claim states. -/
theorem fetch_retries_and_backoff (maxRetries : Nat) (stoppedAt : Nat → Bool)
    (outcome : Nat → AttemptResult) (jitter : Nat → ℚ)
    (hfail : ∀ n, n < maxRetries → ∀ body, outcome n ≠ .response 200 body)
    (hstop : ∀ n, stoppedAt n = false)
    (hj : ∀ n, 0 ≤ jitter n ∧ jitter n < 1) :
    (fetchContent maxRetries stoppedAt outcome jitter).1 = none ∧
    (fetchContent maxRetries stoppedAt outcome jitter).2.httpAttempts.length = maxRetries ∧
    (∀ n, 1 ≤ n → n < maxRetries →
      (fetchContent maxRetries stoppedAt outcome jitter).2.sleeps[n - 1]? =
        some ((2 : ℚ) ^ (n - 1) + jitter (n - 1)) ∧
      (2 : ℚ) ^ (n - 1) ≤ (2 : ℚ) ^ (n - 1) + jitter (n - 1) ∧
      (2 : ℚ) ^ (n - 1) + jitter (n - 1) < 2 ^ n) := by
  have h := fetchGo_persistent_failure stoppedAt outcome jitter 0 maxRetries
    (fun n _ h2 body => hfail n (by omega) body) hstop
  unfold fetchContent
  rw [h]
  refine ⟨rfl, by simp, ?_⟩
  intro n h1 h2
  have hlt : n - 1 < maxRetries := by omega
  refine ⟨?_, ?_, ?_⟩
  · simp only [List.getElem?_map]
    rw [List.getElem?_range' _ _]
    · simp
    · exact hlt
  · have := (hj (n - 1)).1
    linarith
  · have hj2 := (hj (n - 1)).2
    have hone : (1 : ℚ) ≤ 2 ^ (n - 1) := one_le_pow₀ (by norm_num)
    have hsplit : (2 : ℚ) ^ n = 2 ^ (n - 1) * 2 := by
      rw [← pow_succ]
      congr 1
      omega
    rw [hsplit]
    linarith

/-- Witness for `fetch_retries_and_backoff`: three failing attempts with
jitter 0 give requests at attempts 0, 1, 2 and a sleep of `2^0 = 1` second
before attempt 1. -/
theorem fetch_retries_and_backoff_witness :
    (fetchContent 3 (fun _ => false) (fun _ => .transportError "refused") (fun _ => 0)).1
        = none ∧
    (fetchContent 3 (fun _ => false) (fun _ => .transportError "refused")
        (fun _ => 0)).2.httpAttempts.length = 3 ∧
    (fetchContent 3 (fun _ => false) (fun _ => .transportError "refused")
        (fun _ => 0)).2.sleeps[0]? = some ((2 : ℚ) ^ (0 : ℕ) + 0) := by
  have h := fetch_retries_and_backoff 3 (fun _ => false)
    (fun _ => .transportError "refused") (fun _ => 0)
    (fun n _ body h => by cases h) (fun n => rfl)
    (fun n => ⟨le_rfl, by norm_num⟩)
  exact ⟨h.1, h.2.1, (h.2.2 1 le_rfl (by norm_num)).1⟩

/-- Counterexample to C1 as stated: with `maxRetries = 3` (the config
default), every attempt failing and a jitter of `1/2`, the delay inserted
before attempt 1 is `2^0 + 1/2 = 3/2`, which is smaller than the `2^1 = 2`
seconds the claim asserts as a lower bound. -/
theorem fetch_backoff_counterexample :
    (fetchContent 3 (fun _ => false) (fun _ => .transportError "refused")
        (fun _ => 1/2)).2.sleeps[0]? = some (3/2 : ℚ) ∧
    ¬ ((3 / 2 : ℚ) ≥ 2 ^ (1 : ℕ)) := by
  constructor
  · show (fetchGo _ _ _ 0 3).2.sleeps[0]? = some (3/2 : ℚ)
    norm_num [fetchGo]
  · norm_num

/-- Helper: closed form of the completion fold. -/
theorem batchFold_closed (rs : List ProcResult) (acc : BatchResult) :
    (rs.foldl batchStep acc) =
      { total := acc.total,
        processed := acc.processed + rs.length,
        successful := acc.successful + (rs.filter (fun r => r.success)).length,
        failed := acc.failed + (rs.filter (fun r => !r.success)).length,
        failures := acc.failures ++ (rs.filter (fun r => !r.success)).map
          (fun r => (r.urlKey.getD "unknown", r.error.getD "Unknown error")),
        successFlag := acc.successFlag } := by
  induction rs generalizing acc with
  | nil => simp
  | cons r rest ih =>
    rw [List.foldl_cons, ih]
    cases hs : r.success <;>
      simp [batchStep, hs, List.filter_cons] <;>
      constructor <;> omega

/-- Helper: closed form of `batchAggregate`. -/
theorem batchAggregate_closed (rs : List ProcResult) :
    batchAggregate rs =
      { total := rs.length,
        processed := rs.length,
        successful := (rs.filter (fun r => r.success)).length,
        failed := (rs.filter (fun r => !r.success)).length,
        failures := (rs.filter (fun r => !r.success)).map
          (fun r => (r.urlKey.getD "unknown", r.error.getD "Unknown error")),
        successFlag := ((rs.filter (fun r => !r.success)).length = 0 : Bool) } := by
  unfold batchAggregate
  simp only []
  rw [batchFold_closed]
  by_cases h : (rs.filter (fun r => !r.success)).length = 0 <;> simp [h]


/-- Helper: host characters are allowed characters. -/
theorem allowed_of_host (c : Char) (h : isHostChar c = true) : allowedChar c = true := by
  simp only [isHostChar, Bool.or_eq_true] at h
  simp only [allowedChar, Bool.or_eq_true]
  tauto

/-- Helper: TLD characters are allowed characters. -/
theorem allowed_of_tld (c : Char) (h : isTldChar c = true) : allowedChar c = true := by
  simp only [isTldChar, Bool.or_eq_true] at h
  simp only [allowedChar, Bool.or_eq_true]
  tauto

/-- Helper: tail characters are allowed characters. -/
theorem allowed_of_tail (c : Char) (h : isTailChar c = true) : allowedChar c = true := by
  simp only [isTailChar, Char.isAlphanum, Bool.or_eq_true] at h
  simp only [allowedChar, Bool.or_eq_true]
  tauto

/-- Helper: a string accepted by the host/tld/tail part of the URL pattern
consists of allowed characters only. -/
theorem hostTldTail_allowed (l : List Char) (h : hostTldTail l = true) :
    ∀ c ∈ l, allowedChar c = true := by
  intro c hc
  unfold hostTldTail at h
  rw [List.any_eq_true] at h
  obtain ⟨i, _, hi⟩ := h
  rw [List.any_eq_true] at hi
  obtain ⟨k, _, hsp⟩ := hi
  unfold checkSplit at hsp
  cases hd : l.drop i with
  | nil => rw [hd] at hsp; simp at hsp
  | cons d rest2 =>
    rw [hd] at hsp
    simp only [Bool.and_eq_true] at hsp
    obtain ⟨⟨⟨⟨⟨hdot0, _⟩, hhost0⟩, _⟩, htld0⟩, htail0⟩ := hsp
    have hdot := of_decide_eq_true hdot0
    rw [List.all_eq_true] at hhost0 htld0 htail0
    rw [← List.take_append_drop i l, List.mem_append] at hc
    cases hc with
    | inl hmem => exact allowed_of_host c (hhost0 c hmem)
    | inr hmem =>
      rw [hd] at hmem
      rw [List.mem_cons] at hmem
      cases hmem with
      | inl hcd => rw [hcd, hdot]; rfl
      | inr hmem2 =>
        rw [← List.take_append_drop k rest2, List.mem_append] at hmem2
        cases hmem2 with
        | inl hm => exact allowed_of_tld c (htld0 c hm)
        | inr hm => exact allowed_of_tail c (htail0 c hm)

/-- Helper: every character of the seven-character scheme literal is a
character of the eight-character one. -/
theorem mem_http_mem_https (c : Char) (hc : c ∈ "http://".toList) :
    c ∈ "https://".toList := by
  have e1 : "http://".toList = ['h', 't', 't', 'p', ':', '/', '/'] := rfl
  have e2 : "https://".toList = ['h', 't', 't', 'p', 's', ':', '/', '/'] := rfl
  rw [e1] at hc
  rw [e2]
  simp only [List.mem_cons, List.not_mem_nil, or_false] at hc ⊢
  tauto

/-- Helper: an `https://` prefix rules out an `http://` prefix. -/
theorem https_prefix_not_http (l : List Char)
    (h : hasPrefixCI l "https://".toList = true) :
    hasPrefixCI l "http://".toList = false := by
  by_contra hcon
  rw [Bool.not_eq_false] at hcon
  have h8 := of_decide_eq_true h
  have h7 := of_decide_eq_true hcon
  have hlen8 : ("https://".toList).length = 8 := rfl
  have hlen7 : ("http://".toList).length = 7 := rfl
  rw [hlen8] at h8
  rw [hlen7] at h7
  have e3 : l.take 7 = (l.take 8).take 7 := by
    rw [List.take_take]
    norm_num
  rw [e3, List.map_take, h8] at h7
  exact absurd h7 (by decide)

/-- Helper: every character of a URL accepted by `validate_url` is either
an allowed host/tld/tail character or (lowered) a character of the scheme
literal, and every character after the optional scheme is allowed. -/
theorem validateUrl_char_discipline (s : String) (h : validateUrl s = true) :
    (∀ c ∈ stripScheme s.toList, allowedChar c = true) ∧
    (∀ c ∈ s.toList, allowedChar c = true ∨ Char.toLower c ∈ "https://".toList) := by
  unfold validateUrl at h
  simp only [Bool.or_eq_true, Bool.and_eq_true] at h
  rcases h with (hfull | ⟨hpre, hrest⟩) | ⟨hpre, hrest⟩
  · constructor
    · intro c hc
      unfold stripScheme at hc
      have hsub : c ∈ s.toList := by
        split at hc
        · exact List.drop_subset _ _ hc
        · split at hc
          · exact List.drop_subset _ _ hc
          · exact hc
      exact hostTldTail_allowed _ hfull c hsub
    · intro c hc
      exact Or.inl (hostTldTail_allowed _ hfull c hc)
  · have hstrip : stripScheme s.toList = s.toList.drop 7 := by
      unfold stripScheme
      rw [if_pos hpre]
    have hp := of_decide_eq_true hpre
    have hlen7 : ("http://".toList).length = 7 := rfl
    rw [hlen7] at hp
    constructor
    · intro c hc
      rw [hstrip] at hc
      exact hostTldTail_allowed _ hrest c hc
    · intro c hc
      rw [← List.take_append_drop 7 s.toList, List.mem_append] at hc
      cases hc with
      | inl hm =>
        right
        have : Char.toLower c ∈ (s.toList.take 7).map Char.toLower :=
          List.mem_map_of_mem _ hm
        rw [hp] at this
        exact mem_http_mem_https _ this
      | inr hm => exact Or.inl (hostTldTail_allowed _ hrest c hm)
  · have hstrip : stripScheme s.toList = s.toList.drop 8 := by
      unfold stripScheme
      rw [if_neg, if_pos hpre]
      rw [https_prefix_not_http _ hpre]
      simp
    have hp := of_decide_eq_true hpre
    have hlen8 : ("https://".toList).length = 8 := rfl
    rw [hlen8] at hp
    constructor
    · intro c hc
      rw [hstrip] at hc
      exact hostTldTail_allowed _ hrest c hc
    · intro c hc
      rw [← List.take_append_drop 8 s.toList, List.mem_append] at hc
      cases hc with
      | inl hm =>
        right
        have : Char.toLower c ∈ (s.toList.take 8).map Char.toLower :=
          List.mem_map_of_mem _ hm
        rw [hp] at this
        exact this
      | inr hm => exact Or.inl (hostTldTail_allowed _ hrest c hm)

/-- Helper: a URL containing `?`, `#` or `%` anywhere, or `:` after the
optional scheme, fails `validate_url`. -/
theorem validateUrl_rejects_bad_chars (s : String)
    (h : '?' ∈ s.toList ∨ '#' ∈ s.toList ∨ '%' ∈ s.toList ∨ ':' ∈ stripScheme s.toList) :
    validateUrl s = false := by
  by_contra hcon
  rw [Bool.not_eq_false] at hcon
  have hd := validateUrl_char_discipline s hcon
  rcases h with hq | hq | hq | hq
  · rcases hd.2 _ hq with ha | ha
    · exact absurd ha (by decide)
    · exact absurd ha (by decide)
  · rcases hd.2 _ hq with ha | ha
    · exact absurd ha (by decide)
    · exact absurd ha (by decide)
  · rcases hd.2 _ hq with ha | ha
    · exact absurd ha (by decide)
    · exact absurd ha (by decide)
  · exact absurd (hd.1 _ hq) (by decide)

/-- Helper: the description/type/logo part of the company stage never
touches the company name. -/
theorem companyExtractRest_name (pr : CompanyProbes) (content url : String)
    (c : CompanyEntity) :
    (companyExtractRest pr content url c).company_name = c.company_name := by
  unfold companyExtractRest
  simp only []
  repeat' split
  all_goals rfl

/-- C5: in the company stage the final name is last-writer-wins in the
fixed order title (suffix-stripped) → structured-data organization name →
site-name meta tag — each later source, when present, unconditionally
overwrites — which coincides with the spec's precedence reading; and the
title `Acme Co - Home` is stripped to `Acme Co`. -/
theorem company_name_last_writer_wins :
    (∀ (pr : CompanyProbes) (content url : String) (c : CompanyEntity),
      (companyExtract pr content url c).company_name =
        specNamePrecedence (pr.titleOf content) (pr.orgNameOf content)
          (pr.siteNameOf content) c.company_name) ∧
    String.mk (stripTitleSuffixes (pyStrip "Acme Co - Home".toList)) = "Acme Co" ∧
    (companyExtract { trivialCompanyProbes with titleOf := fun _ => some "Acme Co - Home" }
      "<title>Acme Co - Home</title>" "http://acme.com" {}).company_name = "Acme Co" := by
  refine ⟨?_, by decide, by decide⟩
  intro pr content url c
  rw [companyExtract, companyExtractRest_name]
  unfold companyExtractName specNamePrecedence
  cases pr.titleOf content <;> cases pr.orgNameOf content <;>
    cases pr.siteNameOf content <;> rfl

/-- Helper: the phone/address part of the contact stage never touches the
e-mail field. -/
theorem contactRest_emails (pr : ContactProbes) (content : String) (c : CompanyEntity) :
    (contactRest pr content c).emails = c.emails := by
  unfold contactRest
  simp only []
  repeat' split
  all_goals rfl

/-- C7: after the contact stage the e-mail field is duplicate-free,
contains exactly the findall matches of the combined content whose
lowercase form is not a placeholder (whenever findall matched at all —
with no match the field keeps its prior, duplicate-free value), and on
content containing `sales@acme.com` and `user@example.com` it is exactly
`{"sales@acme.com"}`. -/
theorem contact_emails_dedup_complete :
    (∀ (pr : ContactProbes) (content : String) (c : CompanyEntity),
      c.emails.Nodup →
      (contactExtract pr content c).emails.Nodup ∧
      (∀ e ∈ emailFindall (content ++ pr.contactExtraOf content),
        pyLower e ∉ falsePositives → e ∈ (contactExtract pr content c).emails) ∧
      (emailFindall (content ++ pr.contactExtraOf content) ≠ [] →
        ∀ e ∈ (contactExtract pr content c).emails,
          e ∈ emailFindall (content ++ pr.contactExtraOf content) ∧
          pyLower e ∉ falsePositives)) ∧
    (contactExtract trivialContactProbes
      "Contact sales@acme.com or user@example.com today" {}).emails =
        ["sales@acme.com"] := by
  constructor
  · intro pr content c hnd
    rw [contactExtract, contactRest_emails]
    unfold contactEmailsStage
    by_cases hM : (emailFindall (content ++ pr.contactExtraOf content)).isEmpty = true
    · have hnil : emailFindall (content ++ pr.contactExtraOf content) = [] :=
        List.isEmpty_iff.mp hM
      refine ⟨?_, ?_, ?_⟩
      · simp only [hM]
        exact hnd
      · intro e he
        rw [hnil] at he
        exact absurd he (List.not_mem_nil e)
      · intro hne
        exact absurd hnil hne
    · have hM2 : (emailFindall (content ++ pr.contactExtraOf content)).isEmpty = false :=
        Bool.not_eq_true _ ▸ Bool.eq_false_iff.mpr hM
      refine ⟨?_, ?_, ?_⟩
      · simp only [hM2]
        exact List.nodup_dedup _
      · intro e he hfp
        simp only [hM2]
        exact List.mem_dedup.mpr (List.mem_filter.mpr ⟨he, decide_eq_true hfp⟩)
      · intro _ e he
        simp only [hM2] at he
        have hm := List.mem_filter.mp (List.mem_dedup.mp he)
        exact ⟨hm.1, of_decide_eq_true hm.2⟩
  · decide

/-- Witness for `contact_emails_dedup_complete`: the scenario content with
an empty prior field gives a duplicate-free result containing the
non-placeholder address. -/
theorem contact_emails_dedup_complete_witness :
    (contactExtract trivialContactProbes
      "Contact sales@acme.com or user@example.com today" {}).emails.Nodup ∧
    "sales@acme.com" ∈ (contactExtract trivialContactProbes
      "Contact sales@acme.com or user@example.com today" {}).emails :=
  ⟨(contact_emails_dedup_complete.1 trivialContactProbes
      "Contact sales@acme.com or user@example.com today" {} (by decide)).1,
   (contact_emails_dedup_complete.1 trivialContactProbes
      "Contact sales@acme.com or user@example.com today" {} (by decide)).2.1
      "sales@acme.com" (by decide) (by decide)⟩

/-- Helper: the fetch loop with `m` failing, unstopped attempts followed
by a positive stop flag performs exactly the first `m` requests, sleeps
after each, and gives up without issuing request `m`. -/
theorem fetchGo_stopped_mid (stoppedAt : Nat → Bool) (outcome : Nat → AttemptResult)
    (jitter : Nat → ℚ) :
    ∀ (m start fuel : Nat), m < fuel →
      (∀ j, j < m → stoppedAt (start + j) = false ∧
        ∀ body, outcome (start + j) ≠ .response 200 body) →
      stoppedAt (start + m) = true →
      fetchGo stoppedAt outcome jitter start fuel =
        (none, ⟨List.range' start m,
                (List.range' start m).map (fun a => (2 : ℚ) ^ a + jitter a)⟩) := by
  intro m
  induction m with
  | zero =>
    intro start fuel hlt hprev hstop
    cases fuel with
    | zero => omega
    | succ f =>
      rw [Nat.add_zero] at hstop
      rw [fetchGo, hstop]
      simp [List.range']
  | succ m ih =>
    intro start fuel hlt hprev hstop
    cases fuel with
    | zero => omega
    | succ f =>
      have h0 := hprev 0 (by omega)
      rw [Nat.add_zero] at h0
      have hrec := ih (start + 1) f (by omega)
        (fun j hj => by
          have hp := hprev (j + 1) (by omega)
          have e : start + 1 + j = start + (j + 1) := by omega
          rw [e]
          exact hp)
        (by
          have e : start + 1 + m = start + (m + 1) := by omega
          rw [e]
          exact hstop)
      rw [fetchGo, h0.1]
      simp only [Bool.false_eq_true, if_false]
      cases ho : outcome start with
      | response status body =>
        have hne : ¬ (status = 200) := by
          intro hq
          exact (h0.2 body) (by rw [ho, hq])
        simp only [hne, if_false, hrec, List.range']
        simp
      | transportError msg =>
        simp only [hrec, List.range']
        simp

/-- C4: a stop flag observed at the head of a fetch attempt makes
`fetch_content` return `None` without issuing that request or any later
one, and `process_url` on a URL whose run is stopped before the first
attempt returns the failed extraction result with no stage executed and
no request issued. -/
theorem stop_cancels_fetch_and_pipeline :
    (∀ (maxRetries : Nat) (stoppedAt : Nat → Bool) (outcome : Nat → AttemptResult)
        (jitter : Nat → ℚ) (m : Nat), m < maxRetries →
      (∀ j, j < m → stoppedAt j = false ∧ ∀ body, outcome j ≠ .response 200 body) →
      stoppedAt m = true →
      (fetchContent maxRetries stoppedAt outcome jitter).1 = none ∧
      (fetchContent maxRetries stoppedAt outcome jitter).2.httpAttempts = List.range' 0 m) ∧
    (∀ (env : PipelineEnv) (url : String) (m : Nat), validateUrl url = true →
      m < env.maxRetries →
      (∀ j, j < m → env.stoppedAt j = false ∧
        ∀ body, env.fetchOutcome j ≠ .response 200 body) →
      env.stoppedAt m = true →
      processUrl env url =
        ({ success := false, error := some "Failed to extract data from URL" },
         ⟨List.range' 0 m, [], []⟩)) := by
  have hfetchPart : ∀ (maxRetries : Nat) (stoppedAt : Nat → Bool)
      (outcome : Nat → AttemptResult) (jitter : Nat → ℚ) (m : Nat), m < maxRetries →
      (∀ j, j < m → stoppedAt j = false ∧ ∀ body, outcome j ≠ .response 200 body) →
      stoppedAt m = true →
      fetchContent maxRetries stoppedAt outcome jitter =
        (none, ⟨List.range' 0 m,
                (List.range' 0 m).map (fun a => (2 : ℚ) ^ a + jitter a)⟩) := by
    intro maxRetries stoppedAt outcome jitter m hm hprev hstop
    have h := fetchGo_stopped_mid stoppedAt outcome jitter m 0 maxRetries hm
      (fun j hj => by rw [Nat.zero_add]; exact hprev j hj)
      (by rw [Nat.zero_add]; exact hstop)
    unfold fetchContent
    rw [h]
  constructor
  · intro maxRetries stoppedAt outcome jitter m hm hprev hstop
    rw [hfetchPart maxRetries stoppedAt outcome jitter m hm hprev hstop]
    exact ⟨rfl, rfl⟩
  · intro env url m hv hm hprev hstop
    have hf := hfetchPart env.maxRetries env.stoppedAt env.fetchOutcome env.jitter
      m hm hprev hstop
    unfold processUrl extractData
    simp only [hv, if_true, hf]

/-- Witness for `stop_cancels_fetch_and_pipeline`: stop raised before
attempt 1 after one failed attempt stops the fetch with a single request
issued, and a run stopped from the start yields the failed pipeline
result without stages or requests. -/
theorem stop_cancels_fetch_and_pipeline_witness :
    ((fetchContent 3 (fun n => decide (n = 1)) (fun _ => .transportError "refused")
        (fun _ => 0)).1 = none ∧
     (fetchContent 3 (fun n => decide (n = 1)) (fun _ => .transportError "refused")
        (fun _ => 0)).2.httpAttempts = List.range' 0 1) ∧
    processUrl { goodEnv with stoppedAt := fun _ => true } "http://good1.com" =
      ({ success := false, error := some "Failed to extract data from URL" },
       ⟨List.range' 0 0, [], []⟩) :=
  ⟨stop_cancels_fetch_and_pipeline.1 3 (fun n => decide (n = 1))
      (fun _ => .transportError "refused") (fun _ => 0) 1 (by decide)
      (fun j hj => by
        interval_cases j
        exact ⟨by decide, fun body h => by cases h⟩)
      (by decide),
   stop_cancels_fetch_and_pipeline.2 { goodEnv with stoppedAt := fun _ => true }
      "http://good1.com" 0 (by decide) (by decide)
      (fun j hj => absurd hj (by omega)) (by decide)⟩

/-- C9: a URL containing `?`, `#` or `%` anywhere, or a `:` after the
optional scheme (any port suffix), fails `validate_url`, and
`process_url` returns the invalid-format failure without issuing any
HTTP request or running any stage. -/
theorem invalid_url_rejected_without_fetch :
    (∀ (s : String) (c : Char), c ∈ s.toList → allowedChar c = false →
      Char.toLower c ∉ "https://".toList → validateUrl s = false) ∧
    (∀ (s : String) (env : PipelineEnv),
      '?' ∈ s.toList ∨ '#' ∈ s.toList ∨ '%' ∈ s.toList ∨ ':' ∈ stripScheme s.toList →
      validateUrl s = false ∧
      processUrl env s =
        ({ success := false, error := some "Invalid URL format" }, ⟨[], [], []⟩)) := by
  constructor
  · intro s c hc hbad hns
    by_contra hcon
    rw [Bool.not_eq_false] at hcon
    rcases (validateUrl_char_discipline s hcon).2 c hc with ha | ha
    · rw [hbad] at ha
      cases ha
    · exact hns ha
  · intro s env h
    have hv := validateUrl_rejects_bad_chars s h
    refine ⟨hv, ?_⟩
    unfold processUrl
    simp only [hv, Bool.false_eq_true, if_false]

/-- Witness for `invalid_url_rejected_without_fetch`: a URL with a query
string is rejected without any request. -/
theorem invalid_url_rejected_without_fetch_witness :
    validateUrl "http://example.com/a?b=1" = false ∧
    processUrl goodEnv "http://example.com/a?b=1" =
      ({ success := false, error := some "Invalid URL format" }, ⟨[], [], []⟩) :=
  invalid_url_rejected_without_fetch.2 "http://example.com/a?b=1" goodEnv
    (Or.inl (by decide))

/-- Helper: the product loop yields at most one product per link, never
fetches a URL twice, and never fetches a URL already visited. -/
theorem productLoopGo_bound_nodup (stoppedAt : Nat → Bool)
    (fetchPage : String → Option String) (details : String → ProductData)
    (categories : List String) :
    ∀ (links : List Link) (i : Nat) (visited : List String),
      (productLoopGo stoppedAt fetchPage details categories links i visited).1.length
          ≤ links.length ∧
      (productLoopGo stoppedAt fetchPage details categories links i visited).2.2.Nodup ∧
      (∀ u ∈ (productLoopGo stoppedAt fetchPage details categories links i visited).2.2,
        u ∉ visited) := by
  intro links
  induction links with
  | nil =>
    intro i visited
    simp [productLoopGo]
  | cons link rest ih =>
    intro i visited
    rw [productLoopGo]
    by_cases hstop : stoppedAt i = true
    · simp [hstop]
    · have hstop2 : stoppedAt i = false := by
        rwa [Bool.not_eq_true] at hstop
      simp only [hstop2, Bool.false_eq_true, if_false]
      by_cases hvis : link.url ∈ visited
      · simp only [if_pos hvis]
        obtain ⟨ihl, ihn, ihm⟩ := ih (i + 1) visited
        exact ⟨le_trans ihl (Nat.le_succ _), ihn, ihm⟩
      · simp only [if_neg hvis]
        cases hf : fetchPage link.url with
        | none =>
          obtain ⟨ihl, ihn, ihm⟩ := ih (i + 1) (link.url :: visited)
          simp only []
          refine ⟨le_trans ihl (Nat.le_succ _), ?_, ?_⟩
          · exact List.nodup_cons.mpr
              ⟨fun hmem => (ihm _ hmem) (List.mem_cons_self _ _), ihn⟩
          · intro u hu
            rw [List.mem_cons] at hu
            cases hu with
            | inl he => rw [he]; exact hvis
            | inr hm =>
              intro hcon
              exact (ihm u hm) (List.mem_cons_of_mem _ hcon)
        | some content =>
          obtain ⟨ihl, ihn, ihm⟩ := ih (i + 1) (link.url :: visited)
          simp only []
          refine ⟨Nat.succ_le_succ ihl, ?_, ?_⟩
          · exact List.nodup_cons.mpr
              ⟨fun hmem => (ihm _ hmem) (List.mem_cons_self _ _), ihn⟩
          · intro u hu
            rw [List.mem_cons] at hu
            cases hu with
            | inl he => rw [he]; exact hvis
            | inr hm =>
              intro hcon
              exact (ihm u hm) (List.mem_cons_of_mem _ hcon)

/-- Helper: with no stop, fresh distinct links and successful fetches,
the loop yields one product per link, in input order. -/
theorem productLoopGo_all_fetched (fetchPage : String → Option String)
    (details : String → ProductData) :
    ∀ (links : List Link) (i : Nat) (visited : List String),
      (∀ l ∈ links, l.url ∉ visited) →
      (links.map Link.url).Nodup →
      (∀ l ∈ links, (fetchPage l.url).isSome = true) →
      (productLoopGo (fun _ => false) fetchPage details [] links i visited).1 =
        links.map (fun link =>
          mkCrawlProduct (details ((fetchPage link.url).getD "")) link []) := by
  intro links
  induction links with
  | nil =>
    intro i visited _ _ _
    simp [productLoopGo]
  | cons link rest ih =>
    intro i visited hfresh hnd hfetch
    rw [productLoopGo]
    have hvis : link.url ∉ visited := hfresh link (List.mem_cons_self _ _)
    simp only [Bool.false_eq_true, if_false, if_neg hvis]
    cases hf : fetchPage link.url with
    | none =>
      have := hfetch link (List.mem_cons_self _ _)
      rw [hf] at this
      cases this
    | some content =>
      rw [List.map_cons] at hnd
      have hrec := ih (i + 1) (link.url :: visited)
        (fun l hl => by
          rw [List.mem_cons]
          push_neg
          constructor
          · intro he
            exact (List.nodup_cons.mp hnd).1
              (he ▸ List.mem_map_of_mem Link.url hl)
          · exact hfresh l (List.mem_cons_of_mem _ hl))
        (List.nodup_cons.mp hnd).2
        (fun l hl => hfetch l (List.mem_cons_of_mem _ hl))
      simp only []
      rw [hrec, List.map_cons, hf]
      rfl

/-- C6: the crawl appends at most `maxProducts` products and never issues
two fetches for the same URL; and with 30 distinct discovered links,
`maxProducts = 20`, no stop and all fetches succeeding, it yields exactly
the first 20 links' products in input order. -/
theorem product_crawl_caps_and_order :
    (∀ (stoppedAt : Nat → Bool) (fetchPage : String → Option String)
        (details : String → ProductData) (categories : List String)
        (links : List Link) (maxP : Nat) (c : CompanyEntity),
      ∃ ps, (productExtract stoppedAt fetchPage details categories links maxP c).1.products
            = c.products ++ ps ∧ ps.length ≤ maxP ∧
        (productExtract stoppedAt fetchPage details categories links maxP c).2.Nodup) ∧
    (∀ (fetchPage : String → Option String) (details : String → ProductData)
        (links : List Link), links.length = 30 → (links.map Link.url).Nodup →
      (∀ l ∈ links, (fetchPage l.url).isSome = true) →
      (productExtract (fun _ => false) fetchPage details [] links 20 {}).1.products =
        (links.take 20).map (fun link =>
          mkCrawlProduct (details ((fetchPage link.url).getD "")) link []) ∧
      (productExtract (fun _ => false) fetchPage details [] links 20 {}).1.products.length
          = 20) := by
  constructor
  · intro stoppedAt fetchPage details categories links maxP c
    obtain ⟨hl, hn, _⟩ := productLoopGo_bound_nodup stoppedAt fetchPage details categories
      (links.take maxP) 0 []
    refine ⟨(productLoopGo stoppedAt fetchPage details categories
        (links.take maxP) 0 []).1, rfl, ?_, hn⟩
    calc (productLoopGo stoppedAt fetchPage details categories
          (links.take maxP) 0 []).1.length
        ≤ (links.take maxP).length := hl
      _ ≤ maxP := by rw [List.length_take]; exact min_le_left _ _
  · intro fetchPage details links h30 hnd hfetch
    have hmain : (productExtract (fun _ => false) fetchPage details [] links 20 {}).1.products
        = (links.take 20).map (fun link =>
            mkCrawlProduct (details ((fetchPage link.url).getD "")) link []) := by
      unfold productExtract
      simp only []
      rw [productLoopGo_all_fetched fetchPage details (links.take 20) 0 []
        (fun l _ => List.not_mem_nil l.url)
        (by
          rw [List.map_take]
          exact List.Nodup.sublist (List.take_sublist _ _) hnd)
        (fun l hl => hfetch l (List.take_subset _ _ hl))]
      exact List.nil_append _
    refine ⟨hmain, ?_⟩
    rw [hmain, List.length_map, List.length_take, h30]
    norm_num

/-- Witness for `product_crawl_caps_and_order`: thirty distinct links
with all fetches succeeding yield exactly twenty products. -/
theorem product_crawl_caps_and_order_witness :
    (productExtract (fun _ => false) (fun _ => some "page") (fun _ => {}) []
      links30 20 {}).1.products.length = 20 :=
  (product_crawl_caps_and_order.2 (fun _ => some "page") (fun _ => {}) links30
    (by decide) (by decide) (fun l _ => rfl)).2

/-- Helper: no branch of `process_url` puts a `"url"` key into the
returned dict. -/
theorem processUrl_urlKey_none (env : PipelineEnv) (url : String) :
    (processUrl env url).1.urlKey = none := by
  unfold processUrl
  by_cases hv : validateUrl url = true
  · simp only [hv, if_true]
    cases hx : extractData env url with
    | mk copt tr => cases copt <;> rfl
  · have hv2 : validateUrl url = false := by
      rwa [Bool.not_eq_true] at hv
    simp only [hv2, Bool.false_eq_true, if_false]

/-- C2 (amended): the batch aggregation reports `processed` equal to the
batch size and `successful`/`failed` as the per-URL outcome counts, and
its failure entries carry the per-URL error messages — but the `url`
field of every entry is the fallback string `"unknown"`, because the
dicts `process_url` returns never contain a `"url"` key for
`result.get("url", "unknown")` to find. -/
theorem batch_counts_and_unknown_urls (urls : List String) (envOf : String → PipelineEnv)
    (completed : List ProcResult)
    (hne : urls ≠ [])
    (hperm : completed.Perm (urls.map (fun u => (processUrl (envOf u) u).1))) :
    processBatchUrls urls completed = some (batchAggregate completed) ∧
    (batchAggregate completed).processed = urls.length ∧
    (batchAggregate completed).successful = (completed.filter (fun r => r.success)).length ∧
    (batchAggregate completed).failed = (completed.filter (fun r => !r.success)).length ∧
    (batchAggregate completed).failures = (completed.filter (fun r => !r.success)).map
        (fun r => ("unknown", r.error.getD "Unknown error")) := by
  have hkey : ∀ r ∈ completed, r.urlKey = none := by
    intro r hr
    have hr2 := hperm.mem_iff.mp hr
    rw [List.mem_map] at hr2
    obtain ⟨u, _, he⟩ := hr2
    rw [← he]
    exact processUrl_urlKey_none _ _
  refine ⟨?_, ?_, ?_, ?_, ?_⟩
  · unfold processBatchUrls
    rw [if_neg]
    rw [List.isEmpty_iff]
    exact hne
  · rw [batchAggregate_closed, hperm.length_eq, List.length_map]
  · rw [batchAggregate_closed]
  · rw [batchAggregate_closed]
  · rw [batchAggregate_closed]
    simp only []
    refine List.map_congr_left ?_
    intro r hr
    rw [hkey r (List.mem_of_mem_filter hr)]
    rfl

/-- Witness for `batch_counts_and_unknown_urls`: the concrete five-URL
batch, in submission order. -/
theorem batch_counts_and_unknown_urls_witness :
    processBatchUrls cexUrls cexResults = some (batchAggregate cexResults) ∧
    (batchAggregate cexResults).processed = cexUrls.length ∧
    (batchAggregate cexResults).successful
        = (cexResults.filter (fun r => r.success)).length ∧
    (batchAggregate cexResults).failed
        = (cexResults.filter (fun r => !r.success)).length ∧
    (batchAggregate cexResults).failures = (cexResults.filter (fun r => !r.success)).map
        (fun r => ("unknown", r.error.getD "Unknown error")) :=
  batch_counts_and_unknown_urls cexUrls cexEnvOf cexResults (by decide)
    (List.Perm.refl _)

/-- Counterexample to C2 as stated: in the concrete five-URL batch with
two fetch failures the totals are 5/3/2 as claimed, but the failure
entries name `"unknown"`, not the two failing URLs. -/
theorem batch_failures_lack_urls_counterexample :
    cexBatch.processed = 5 ∧ cexBatch.successful = 3 ∧ cexBatch.failed = 2 ∧
    cexBatch.failures.map Prod.fst = ["unknown", "unknown"] ∧
    "http://bad1.com" ∉ cexBatch.failures.map Prod.fst ∧
    "http://bad2.com" ∉ cexBatch.failures.map Prod.fst :=
  ⟨by decide, by decide, by decide, by decide, by decide, by decide⟩

/-- C3 (amended): for a non-empty batch the aggregated `success` flag is
true exactly when no URL failed (all URLs succeeded) — not when at least
one succeeded. -/
theorem batch_flag_iff_no_failures (urls : List String) (completed : List ProcResult)
    (hne : urls ≠ []) :
    processBatchUrls urls completed = some (batchAggregate completed) ∧
    ((batchAggregate completed).successFlag = true ↔
      ∀ r ∈ completed, r.success = true) := by
  refine ⟨?_, ?_⟩
  · unfold processBatchUrls
    rw [if_neg]
    rw [List.isEmpty_iff]
    exact hne
  · rw [batchAggregate_closed]
    simp only [decide_eq_true_eq]
    rw [List.length_eq_zero, List.filter_eq_nil_iff]
    constructor
    · intro h r hr
      have hq := h r hr
      cases hs : r.success with
      | true => rfl
      | false => exact absurd (by rw [hs]; rfl) hq
    · intro h r hr
      rw [h r hr]
      simp

/-- Witness for `batch_flag_iff_no_failures`: the concrete five-URL
batch. -/
theorem batch_flag_iff_no_failures_witness :
    processBatchUrls cexUrls cexResults = some (batchAggregate cexResults) ∧
    ((batchAggregate cexResults).successFlag = true ↔
      ∀ r ∈ cexResults, r.success = true) :=
  batch_flag_iff_no_failures cexUrls cexResults (by decide)

/-- Counterexample to C3 as stated: in the concrete five-URL batch three
URLs succeeded (so at least one did), yet the `success` flag is false
because two failed. -/
theorem batch_flag_false_despite_success_counterexample :
    cexBatch.successFlag = false ∧ 1 ≤ cexBatch.successful ∧ cexBatch.processed = 5 :=
  ⟨by decide, by decide, by decide⟩
